import Mathlib

/-!
Shallow embedding of `src/main.c` (LumiConnect firmware entry point).

The program is modelled as a producer of a trace of observable events.
External collaborators (`stdio_usb_connected`, `cyw43_arch_*`,
`cliente_mqtt_esta_conectado`, `bh1750_ler_lux`, `iniciar_mqtt_cliente`,
`publicar_mensagem_mqtt`, `printf`, `sleep_ms`) are represented as events
whose results, where the program branches on them, come from oracle
functions.  C strings are modelled as `List Char`; the C `float` sensor
value is modelled as a rational number, and `snprintf "%.2f"` as decimal
rendering of the value rounded to two fractional digits, truncated to the
destination buffer size as `snprintf` does.
-/

/-- One observable action performed by `main`. -/
inductive Event where
  /-- `stdio_init_all()` (main.c line 25). -/
  | stdioInit
  /-- one call to `stdio_usb_connected()` returning `connected` (line 29). -/
  | usbPoll (connected : Bool)
  /-- `sleep_ms(ms)` (lines 30, 74, 109). -/
  | sleep_ms (ms : Nat)
  /-- one `printf` emitting `msg` (log plumbing). -/
  | log (msg : List Char)
  /-- `cyw43_arch_init()` (line 39). -/
  | radioInit
  /-- `cyw43_arch_enable_sta_mode()` (line 43). -/
  | staMode
  /-- `cyw43_arch_wifi_connect_timeout_ms(..., timeout)` (line 46). -/
  | wifiConnect (timeout : Nat)
  /-- `i2c_init(i2c1, hz)` (line 54). -/
  | i2cInit (hz : Nat)
  /-- `gpio_set_function(pin, GPIO_FUNC_I2C)` (lines 55-56). -/
  | gpioSetFunc (pin : Nat)
  /-- `gpio_pull_up(pin)` (lines 57-58). -/
  | gpioPullUp (pin : Nat)
  /-- `bh1750_iniciar()` (line 65). -/
  | sensorInit
  /-- `iniciar_mqtt_cliente()` (lines 68, 105). -/
  | mqttStart
  /-- one call to `cliente_mqtt_esta_conectado()` returning `connected`
      (lines 73, 77, 90). -/
  | mqttQuery (connected : Bool)
  /-- `bh1750_ler_lux()` (line 92). -/
  | readLux
  /-- `publicar_mensagem_mqtt(topic, payload)` (line 100). -/
  | publish (topic payload : List Char)
  deriving DecidableEq

/-- The character printed for the decimal digit `d % 10`. -/
def digitChar (d : Nat) : Char :=
  match d % 10 with
  | 0 => '0'
  | 1 => '1'
  | 2 => '2'
  | 3 => '3'
  | 4 => '4'
  | 5 => '5'
  | 6 => '6'
  | 7 => '7'
  | 8 => '8'
  | _ => '9'

/-- Decimal digit sequence of `n`, most significant first, empty for `0`;
`fuel` bounds the recursion (any `fuel ≥ n` is enough). -/
def natDigitsAux : Nat → Nat → List Char
  | 0, _ => []
  | fuel + 1, n =>
    if n = 0 then [] else natDigitsAux fuel (n / 10) ++ [digitChar (n % 10)]

/-- Decimal rendering of a natural number, as `printf "%u"` would print it. -/
def natDigits (n : Nat) : List Char :=
  if n = 0 then ['0'] else natDigitsAux n n

/-- Value of a digit character (inverse of `digitChar` on digits). -/
def dval (c : Char) : Nat :=
  c.toNat - 48

/-- Numeric value of a most-significant-first digit string. -/
def digitsToNat (l : List Char) : Nat :=
  l.foldl (fun a c => 10 * a + dval c) 0

/-- `q` scaled to hundredths and rounded to the nearest integer (ties up):
`centi q = ⌊100 * q + 1 / 2⌋`, written out over the numerator and (positive)
denominator so that it evaluates. -/
def centi (q : ℚ) : ℤ :=
  Int.fdiv (200 * q.num + q.den) (2 * q.den)

/-- Model of `snprintf(buf, size, "%.2f", x)` producing the written string:
the value is rounded to the nearest hundredth and rendered with exactly two
fractional digits and `.` as separator (C's `%.2f` is locale-independent in
the "C" locale the firmware runs in); the sensor `float` is modelled as a
rational.  Truncation to the buffer is applied separately by `snprintfTo`. -/
def fmt2 (q : ℚ) : List Char :=
  let m : ℤ := centi q
  let a : ℕ := m.natAbs
  (if m < 0 then ['-'] else []) ++
    natDigits (a / 100) ++ ['.'] ++ [digitChar (a % 100 / 10), digitChar (a % 100)]

/-- `snprintf` into a buffer of `size` bytes keeps at most `size - 1`
characters of the formatted string (plus the terminating NUL). -/
def snprintfTo (size : Nat) (s : List Char) : List Char :=
  s.take (size - 1)

/-- The payload matcher `^-?\d+\.\d{2}$` restricted to its last three
characters: a dot followed by exactly two digits. -/
def lastThreeOk : List Char → Bool
  | ['.', c1, c2] => c1.isDigit && c2.isDigit
  | _ => false

/-- The payload matcher `^-?\d+\.\d{2}$` after the optional sign: one or
more digits, a dot, exactly two digits. -/
def corePat (l : List Char) : Bool :=
  decide (4 ≤ l.length) && (l.take (l.length - 3)).all Char.isDigit &&
    lastThreeOk (l.drop (l.length - 3))

/-- Matcher for the spec's payload pattern `^-?\d+\.\d{2}$`. -/
def matchesPat (l : List Char) : Bool :=
  if l.head? = some '-' then corePat l.tail else corePat l

/-- Independent parser for fixed-two-decimal strings: on `-?\d+\.\d{2}` it
returns the value in hundredths (used to state that `fmt2` renders the
rounded value faithfully). -/
def parseFixed2 (l : List Char) : Option ℤ :=
  let s : ℤ := if l.head? = some '-' then -1 else 1
  let b : List Char := if l.head? = some '-' then l.tail else l
  if corePat b then
    some (s * ((digitsToNat (b.take (b.length - 3)) : ℤ) * 100 +
      (digitsToNat (b.drop (b.length - 2)) : ℤ)))
  else none

/-- Modelled from the spec: the compile-time configuration of
`configura_geral.h`, which is not under `src/` — "network SSID, network
password, device identifier, topic suffix, ... compile-time, not
runtime-loaded".  Only the constants `main.c` interpolates into strings are
needed; they are kept abstract. -/
structure Config where
  DEVICE_ID : List Char
  TOPICO_PUBLICACAO_LUZ : List Char
  WIFI_SSID : List Char

/-- `snprintf(topico_completo, 128, "%s/%s", DEVICE_ID, TOPICO_PUBLICACAO_LUZ)`
(main.c lines 84, 96): the concatenation, truncated to fit the 128-byte
buffer. -/
def topico_completo (cfg : Config) : List Char :=
  snprintfTo 128 (cfg.DEVICE_ID ++ ['/'] ++ cfg.TOPICO_PUBLICACAO_LUZ)

/-- `snprintf(payload_lux, 20, "%.2f", lux)` (main.c lines 85, 97). -/
def payload_lux (lux : ℚ) : List Char :=
  snprintfTo 20 (fmt2 lux)

/-- One iteration of the steady-state loop body (main.c lines 88-110), given
the answer `connected` of this cycle's `cliente_mqtt_esta_conectado()` call
and the value `lux` this cycle's `bh1750_ler_lux()` would return. -/
def loopIter (cfg : Config) (connected : Bool) (lux : ℚ) : List Event :=
  Event.mqttQuery connected ::
    (if connected then
      [Event.readLux,
       Event.log (("Luminosidade: ").data ++ fmt2 lux ++ (" Lux\n").data),
       Event.publish (topico_completo cfg) (payload_lux lux),
       Event.sleep_ms 1000]
    else
      [Event.log ("[AVISO] Cliente MQTT desconectado. Tentando reconectar...\n").data,
       Event.mqttStart,
       Event.sleep_ms 1000])

/-- Iteration `i` of the steady-state loop under connection oracle `conn`
and sensor oracle `lux`. -/
def cycle (cfg : Config) (conn : Nat → Bool) (lux : Nat → ℚ) (i : Nat) : List Event :=
  loopIter cfg (conn i) (lux i)

/-- The first `n` iterations of the steady-state loop, as one trace. -/
def runLoop (cfg : Config) (conn : Nat → Bool) (lux : Nat → ℚ) (n : Nat) : List Event :=
  (List.range n).flatMap (cycle cfg conn lux)

/-- Number of `publicar_mensagem_mqtt` calls in a trace. -/
def countPublish (t : List Event) : Nat :=
  t.countP (fun e => match e with | Event.publish _ _ => true | _ => false)

/-- Number of `iniciar_mqtt_cliente` calls in a trace. -/
def countStart (t : List Event) : Nat :=
  t.countP (fun e => match e with | Event.mqttStart => true | _ => false)

/-- Number of `cliente_mqtt_esta_conectado` calls in a trace. -/
def countQuery (t : List Event) : Nat :=
  t.countP (fun e => match e with | Event.mqttQuery _ => true | _ => false)

/-- Number of `stdio_usb_connected` calls in a trace. -/
def countUsbPoll (t : List Event) : Nat :=
  t.countP (fun e => match e with | Event.usbPoll _ => true | _ => false)

/-- Number of `sleep_ms(ms)` calls in a trace. -/
def countSleep (ms : Nat) (t : List Event) : Nat :=
  t.countP (fun e => match e with | Event.sleep_ms m => m == ms | _ => false)

/-- The `(topic, payload)` argument pairs of the publish calls of a trace,
in order. -/
def publishedPairs (t : List Event) : List (List Char × List Char) :=
  t.filterMap (fun e => match e with | Event.publish a b => some (a, b) | _ => none)

/-- Total milliseconds slept in a trace. -/
def sleepTotal (t : List Event) : Nat :=
  (t.map (fun e => match e with | Event.sleep_ms m => m | _ => 0)).sum

/-- The MQTT grace-wait loop
`for (int i = 0; i < 20 && !cliente_mqtt_esta_conectado(); i++) sleep_ms(500);`
(main.c lines 73-75), resumed at loop counter `i` with `fuel = 20 - i`
iterations of headroom; `conn j` is the answer of the `(j+1)`-th
`cliente_mqtt_esta_conectado()` call made by the loop. -/
def graceAux (conn : Nat → Bool) : Nat → Nat → List Event
  | _, 0 => []
  | i, fuel + 1 =>
    Event.mqttQuery (conn i) ::
      (if conn i then [] else Event.sleep_ms 500 :: graceAux conn (i + 1) fuel)

/-- The whole grace-wait loop (main.c lines 73-75). -/
def graceTrace (conn : Nat → Bool) : List Event :=
  graceAux conn 0 20

/-- The post-grace connectivity check and its log line (main.c lines 77-81). -/
def postGrace (connected : Bool) : List Event :=
  [Event.mqttQuery connected,
   Event.log (if connected then ("Conexão MQTT estabelecida com sucesso!\n\n").data
     else ("[AVISO] Não foi possível conectar ao broker MQTT inicialmente.\n\n").data)]

/-- The bring-up sequence of `main` after the USB wait (main.c lines 33-69):
the events performed, and `some code` when `main` returns early with `code`
(`none` when bring-up completes).  `radio_ok` is the success of
`cyw43_arch_init()` (line 39, returns 0 on success) and `wifi_ok` the
success of `cyw43_arch_wifi_connect_timeout_ms(...)` (line 46). -/
def bringUp (cfg : Config) (radio_ok wifi_ok : Bool) : List Event × Option ℤ :=
  let pre := [Event.log ("Projeto LumiConnect\n").data,
              Event.log ("Inicializando hardware e conexões...\n").data,
              Event.radioInit]
  if !radio_ok then
    (pre ++ [Event.log ("ERRO: Falha ao inicializar Wi-Fi\n").data], some (-1))
  else
    let pre2 := pre ++ [Event.staMode, Event.wifiConnect 30000]
    if !wifi_ok then
      (pre2 ++ [Event.log ("ERRO: Falha ao conectar ao Wi-Fi\n").data], some (-1))
    else
      (pre2 ++
        [Event.log (("Conectado ao Wi-Fi: ").data ++ cfg.WIFI_SSID ++ ("\n").data),
         Event.i2cInit 100000,
         Event.gpioSetFunc 2, Event.gpioSetFunc 3,
         Event.gpioPullUp 2, Event.gpioPullUp 3,
         Event.log ("Barramento I2C inicializado.\n").data,
         Event.log ("Inicializando módulos...\n").data,
         Event.sensorInit,
         Event.log ("Sensor BH1750 pronto.\n").data,
         Event.mqttStart,
         Event.log ("Cliente MQTT iniciado. Aguardando conexão inicial...\n").data],
        none)

/-- The USB-serial wait `while (!stdio_usb_connected()) sleep_ms(100);`
(main.c lines 29-31), resumed at call number `i`: `usb j` is the answer of
the `(j+1)`-th `stdio_usb_connected()` call; `fuel` bounds how far the loop
is unrolled, and `none` means it has not terminated within `fuel` polls. -/
def usbWaitAux (usb : Nat → Bool) : Nat → Nat → Option (List Event)
  | _, 0 => none
  | i, fuel + 1 =>
    if usb i then some [Event.usbPoll true]
    else (usbWaitAux usb (i + 1) fuel).map
      (fun t => Event.usbPoll false :: Event.sleep_ms 100 :: t)

/-- The oracle environment: the answers of every external call `main`
branches on, plus the sensor values.  The answers to
`cliente_mqtt_esta_conectado()` are split per call site (grace loop,
post-grace check, steady-state loop), each site consuming its own stream. -/
structure Env where
  usb : Nat → Bool
  radio_ok : Bool
  wifi_ok : Bool
  grace_conn : Nat → Bool
  post_conn : Bool
  loop_conn : Nat → Bool
  lux : Nat → ℚ

/-- The trace of `main` (main.c lines 23-113), unrolled to at most `usbFuel`
USB polls and `n` steady-state iterations; `none` when the USB wait has not
terminated within `usbFuel` polls.  After a successful bring-up the
steady-state `while (1)` never exits, so the trace only grows with `n`. -/
def mainTrace (cfg : Config) (e : Env) (usbFuel n : Nat) : Option (List Event) :=
  (usbWaitAux e.usb 0 usbFuel).map (fun w =>
    Event.stdioInit :: (w ++
      ((bringUp cfg e.radio_ok e.wifi_ok).1 ++
        (match (bringUp cfg e.radio_ok e.wifi_ok).2 with
         | some _ => []
         | none => graceTrace e.grace_conn ++ postGrace e.post_conn ++
             runLoop cfg e.loop_conn e.lux n))))

/-- The exit status of `main`: `some c` when `main` returns `c` (which can
only happen from bring-up, and requires the USB wait to have terminated —
within `usbFuel` polls here); `none` when `main` has not returned.  The
`return 0;` at main.c line 112 sits after `while (1)` and is unreachable:
once bring-up succeeds, `main` never returns. -/
def mainExit (cfg : Config) (e : Env) (usbFuel : Nat) : Option ℤ :=
  match usbWaitAux e.usb 0 usbFuel with
  | none => none
  | some _ => (bringUp cfg e.radio_ok e.wifi_ok).2

/-- Classifier for the six hardware/software initialization steps of
bring-up (the spec's radio → station mode → association → bus → sensor →
message-client order); log lines, sleeps and GPIO pin details are not
steps. -/
def isStep (e : Event) : Bool :=
  match e with
  | Event.radioInit => true
  | Event.staMode => true
  | Event.wifiConnect _ => true
  | Event.i2cInit _ => true
  | Event.sensorInit => true
  | Event.mqttStart => true
  | _ => false

theorem digitChar_isDigit (d : Nat) : (digitChar d).isDigit = true := by
  unfold digitChar
  have h : d % 10 < 10 := Nat.mod_lt _ (by norm_num)
  generalize hk : d % 10 = k at h ⊢
  interval_cases k <;> decide

theorem dval_digitChar (d : Nat) : dval (digitChar d) = d % 10 := by
  unfold digitChar
  have h : d % 10 < 10 := Nat.mod_lt _ (by norm_num)
  generalize hk : d % 10 = k at h ⊢
  interval_cases k <;> decide

theorem digitChar_ne_dash (d : Nat) : digitChar d ≠ '-' := by
  unfold digitChar
  have h : d % 10 < 10 := Nat.mod_lt _ (by norm_num)
  generalize hk : d % 10 = k at h ⊢
  interval_cases k <;> decide

theorem natDigitsAux_all (fuel : Nat) :
    ∀ n, (natDigitsAux fuel n).all Char.isDigit = true := by
  induction fuel with
  | zero => intro n; rfl
  | succ f ih =>
    intro n
    unfold natDigitsAux
    split
    · rfl
    · simp [List.all_append, ih, digitChar_isDigit]

theorem natDigits_all (n : Nat) : (natDigits n).all Char.isDigit = true := by
  unfold natDigits
  split
  · decide
  · exact natDigitsAux_all n n

theorem natDigits_ne_nil (n : Nat) : natDigits n ≠ [] := by
  unfold natDigits
  split
  · simp
  · rename_i h
    obtain ⟨m, rfl⟩ := Nat.exists_eq_succ_of_ne_zero h
    unfold natDigitsAux
    simp

theorem digitsToNat_append (l : List Char) (c : Char) :
    digitsToNat (l ++ [c]) = 10 * digitsToNat l + dval c := by
  unfold digitsToNat
  rw [List.foldl_append]
  rfl

theorem natDigitsAux_val (fuel : Nat) :
    ∀ n, n ≤ fuel → digitsToNat (natDigitsAux fuel n) = n := by
  induction fuel with
  | zero => intro n h; interval_cases n; rfl
  | succ f ih =>
    intro n h
    unfold natDigitsAux
    split
    · rename_i h0; rw [h0]; rfl
    · rename_i h0
      have hle : n / 10 ≤ f := by
        have := Nat.div_lt_self (Nat.pos_of_ne_zero h0) (by norm_num : 1 < 10)
        omega
      rw [digitsToNat_append, ih (n / 10) hle, dval_digitChar]
      omega

theorem natDigits_val (n : Nat) : digitsToNat (natDigits n) = n := by
  unfold natDigits
  split
  · rename_i h; rw [h]; rfl
  · exact natDigitsAux_val n n le_rfl

theorem corePat_append (ds : List Char) (c1 c2 : Char)
    (hne : ds ≠ []) (hds : ds.all Char.isDigit = true)
    (h1 : c1.isDigit = true) (h2 : c2.isDigit = true) :
    corePat (ds ++ ['.', c1, c2]) = true := by
  unfold corePat
  have hl : 1 ≤ ds.length := List.length_pos.mpr hne
  have hlen : (ds ++ ['.', c1, c2]).length = ds.length + 3 := by simp
  rw [hlen]
  have h3 : ds.length + 3 - 3 = ds.length := by omega
  rw [h3, List.take_left, List.drop_left]
  simp [hds, lastThreeOk, h1, h2]
  omega

theorem head_digits_ne_dash (ds t : List Char)
    (hne : ds ≠ []) (hds : ds.all Char.isDigit = true) :
    (ds ++ t).head? ≠ some '-' := by
  cases ds with
  | nil => exact absurd rfl hne
  | cons a l =>
    simp only [List.cons_append, List.head?_cons]
    simp only [List.all_cons, Bool.and_eq_true] at hds
    intro hcontra
    rw [Option.some_inj] at hcontra
    rw [hcontra] at hds
    exact absurd hds.1 (by decide)

theorem digitsToNat_pair (b c : Char) :
    digitsToNat [b, c] = 10 * dval b + dval c := by
  unfold digitsToNat
  simp [List.foldl]

theorem fmt2_def (q : ℚ) :
    fmt2 q = (if centi q < 0 then ['-'] else []) ++
      (natDigits ((centi q).natAbs / 100) ++
        ['.', digitChar ((centi q).natAbs % 100 / 10),
          digitChar ((centi q).natAbs % 100)]) := by
  unfold fmt2
  simp [List.append_assoc]

theorem matchesPat_fmt2 (q : ℚ) : matchesPat (fmt2 q) = true := by
  rw [fmt2_def]
  have hne : natDigits ((centi q).natAbs / 100) ≠ [] := natDigits_ne_nil _
  have hds : (natDigits ((centi q).natAbs / 100)).all Char.isDigit = true :=
    natDigits_all _
  have hcore := corePat_append (natDigits ((centi q).natAbs / 100))
    (digitChar ((centi q).natAbs % 100 / 10)) (digitChar ((centi q).natAbs % 100))
    hne hds (digitChar_isDigit _) (digitChar_isDigit _)
  by_cases hm : centi q < 0
  · rw [if_pos hm, List.singleton_append]
    unfold matchesPat
    simp only [List.head?_cons, List.tail_cons, if_pos rfl]
    exact hcore
  · rw [if_neg hm, List.nil_append]
    unfold matchesPat
    rw [if_neg (head_digits_ne_dash _ _ hne hds)]
    exact hcore

theorem parseFixed2_fmt2 (q : ℚ) : parseFixed2 (fmt2 q) = some (centi q) := by
  rw [fmt2_def]
  have hne : natDigits ((centi q).natAbs / 100) ≠ [] := natDigits_ne_nil _
  have hds : (natDigits ((centi q).natAbs / 100)).all Char.isDigit = true :=
    natDigits_all _
  set a := (centi q).natAbs with ha
  set ds := natDigits (a / 100) with hds0
  set c1 := digitChar (a % 100 / 10) with hc1
  set c2 := digitChar (a % 100) with hc2
  have hcore : corePat (ds ++ ['.', c1, c2]) = true :=
    corePat_append ds c1 c2 hne hds (digitChar_isDigit _) (digitChar_isDigit _)
  have hlen : (ds ++ ['.', c1, c2]).length = ds.length + 3 := by simp
  have htake : (ds ++ ['.', c1, c2]).take ((ds ++ ['.', c1, c2]).length - 3) = ds := by
    rw [hlen]
    have h3 : ds.length + 3 - 3 = ds.length := by omega
    rw [h3, List.take_left]
  have hdrop2 : (ds ++ ['.', c1, c2]).drop ((ds ++ ['.', c1, c2]).length - 2) = [c1, c2] := by
    rw [hlen]
    have h1 : ds.length + 3 - 2 = (ds ++ ['.']).length := by simp
    have h2 : ds ++ ['.', c1, c2] = (ds ++ ['.']) ++ [c1, c2] := by simp
    rw [h1, h2, List.drop_left]
  have hva : digitsToNat ds = a / 100 := natDigits_val _
  have hv2 : digitsToNat [c1, c2] = a % 100 := by
    rw [digitsToNat_pair, hc1, hc2, dval_digitChar, dval_digitChar]
    omega
  by_cases hm : centi q < 0
  · rw [if_pos hm, List.singleton_append]
    unfold parseFixed2
    simp only [List.head?_cons, List.tail_cons, if_pos rfl, hcore, if_true]
    rw [htake, hdrop2, hva, hv2]
    congr 1
    omega
  · rw [if_neg hm, List.nil_append]
    unfold parseFixed2
    rw [if_neg (head_digits_ne_dash _ _ hne hds), if_neg (head_digits_ne_dash _ _ hne hds)]
    simp only [hcore, if_true]
    rw [htake, hdrop2, hva, hv2]
    congr 1
    omega

theorem countPublish_cycle (cfg : Config) (conn : Nat → Bool) (lux : Nat → ℚ) (i : Nat) :
    countPublish (cycle cfg conn lux i) = if conn i then 1 else 0 := by
  cases hc : conn i <;>
    simp [cycle, loopIter, hc, countPublish, List.countP_cons, List.countP_nil]

theorem countStart_cycle (cfg : Config) (conn : Nat → Bool) (lux : Nat → ℚ) (i : Nat) :
    countStart (cycle cfg conn lux i) = if conn i then 0 else 1 := by
  cases hc : conn i <;>
    simp [cycle, loopIter, hc, countStart, List.countP_cons, List.countP_nil]

theorem countQuery_cycle (cfg : Config) (conn : Nat → Bool) (lux : Nat → ℚ) (i : Nat) :
    countQuery (cycle cfg conn lux i) = 1 := by
  cases hc : conn i <;>
    simp [cycle, loopIter, hc, countQuery, List.countP_cons, List.countP_nil]

theorem countSleep1000_cycle (cfg : Config) (conn : Nat → Bool) (lux : Nat → ℚ) (i : Nat) :
    countSleep 1000 (cycle cfg conn lux i) = 1 := by
  cases hc : conn i <;>
    simp [cycle, loopIter, hc, countSleep, List.countP_cons, List.countP_nil]

theorem runLoop_succ (cfg : Config) (conn : Nat → Bool) (lux : Nat → ℚ) (n : Nat) :
    runLoop cfg conn lux (n + 1) = runLoop cfg conn lux n ++ cycle cfg conn lux n := by
  unfold runLoop
  rw [List.range_succ, List.flatMap_append]
  simp

theorem take_of_fits {α : Type} (l : List α) (n : Nat) (h : l.length ≤ n) :
    l.take n = l :=
  List.take_of_length_le h

/-- C1: in every steady-state iteration whose connectivity query answers
true immediately before the check, exactly one publish call occurs; its
topic argument is `DEVICE_ID ++ "/" ++ TOPICO_PUBLICACAO_LUZ` (provided the
concatenation fits the 128-byte topic buffer) and its payload argument is
the sensor value rendered as a base-10 decimal with exactly two fractional
digits, matching `^-?\d+\.\d{2}$` (provided the rendering fits the 20-byte
payload buffer). -/
theorem connected_cycle_publishes (cfg : Config) (conn : Nat → Bool) (lux : Nat → ℚ)
    (i : Nat) (hconn : conn i = true)
    (htopic : cfg.DEVICE_ID.length + 1 + cfg.TOPICO_PUBLICACAO_LUZ.length ≤ 127)
    (hpay : (fmt2 (lux i)).length ≤ 19) :
    countPublish (cycle cfg conn lux i) = 1 ∧
    publishedPairs (cycle cfg conn lux i) =
      [(cfg.DEVICE_ID ++ ['/'] ++ cfg.TOPICO_PUBLICACAO_LUZ, fmt2 (lux i))] ∧
    matchesPat (payload_lux (lux i)) = true := by
  have ht : topico_completo cfg = cfg.DEVICE_ID ++ ['/'] ++ cfg.TOPICO_PUBLICACAO_LUZ := by
    unfold topico_completo snprintfTo
    apply take_of_fits
    simp
    omega
  have hp : payload_lux (lux i) = fmt2 (lux i) := by
    unfold payload_lux snprintfTo
    exact take_of_fits _ _ (by omega)
  refine ⟨?_, ?_, ?_⟩
  · rw [countPublish_cycle, hconn]
    rfl
  · simp [cycle, loopIter, hconn, publishedPairs, ht, hp]
  · rw [hp]
    exact matchesPat_fmt2 _

/-- Witness for `connected_cycle_publishes` at a concrete configuration,
always-connected oracle and reading 305. -/
theorem connected_cycle_publishes_witness :
    ((⟨("pico").data, ("luz").data, ("rede").data⟩ : Config).DEVICE_ID.length + 1 +
        (⟨("pico").data, ("luz").data, ("rede").data⟩ : Config).TOPICO_PUBLICACAO_LUZ.length ≤ 127) ∧
    (fmt2 ((fun _ => (305 : ℚ)) 0)).length ≤ 19 ∧
    (countPublish (cycle ⟨("pico").data, ("luz").data, ("rede").data⟩
        (fun _ => true) (fun _ => (305 : ℚ)) 0) = 1 ∧
      publishedPairs (cycle ⟨("pico").data, ("luz").data, ("rede").data⟩
          (fun _ => true) (fun _ => (305 : ℚ)) 0) =
        [(("pico").data ++ ['/'] ++ ("luz").data, fmt2 ((fun _ => (305 : ℚ)) 0))] ∧
      matchesPat (payload_lux ((fun _ => (305 : ℚ)) 0)) = true) :=
  ⟨by decide, by decide,
    connected_cycle_publishes ⟨("pico").data, ("luz").data, ("rede").data⟩
      (fun _ => true) (fun _ => (305 : ℚ)) 0 rfl (by decide) (by decide)⟩

/-- C2: in every steady-state iteration whose connectivity query answers
false, no publish call occurs and exactly one restart
(`iniciar_mqtt_cliente`) call occurs; over any `n` iterations the number of
restart calls is exactly the number of disconnected iterations — one
restart per disconnected cycle, with no backoff and no attempt cap. -/
theorem disconnected_cycle_restarts (cfg : Config) (conn : Nat → Bool) (lux : Nat → ℚ) :
    (∀ i, conn i = false →
      countPublish (cycle cfg conn lux i) = 0 ∧ countStart (cycle cfg conn lux i) = 1) ∧
    (∀ n, countStart (runLoop cfg conn lux n) =
      (List.range n).countP (fun i => !conn i)) := by
  constructor
  · intro i hi
    rw [countPublish_cycle, countStart_cycle, hi]
    exact ⟨rfl, rfl⟩
  · intro n
    induction n with
    | zero => rfl
    | succ m ih =>
      rw [runLoop_succ, List.range_succ]
      unfold countStart at *
      rw [List.countP_append, List.countP_append, ih]
      have := countStart_cycle cfg conn lux m
      unfold countStart at this
      rw [this]
      cases hc : conn m <;> simp [hc, List.countP_cons, List.countP_nil]

/-- Witness for `disconnected_cycle_restarts` with a never-connected oracle:
iteration 0 publishes nothing and restarts once. -/
theorem disconnected_cycle_restarts_witness :
    ((fun _ : Nat => false) 0 = false) ∧
    (countPublish (cycle ⟨("pico").data, ("luz").data, ("rede").data⟩
        (fun _ => false) (fun _ => (305 : ℚ)) 0) = 0 ∧
      countStart (cycle ⟨("pico").data, ("luz").data, ("rede").data⟩
        (fun _ => false) (fun _ => (305 : ℚ)) 0) = 1) :=
  ⟨rfl, (disconnected_cycle_restarts ⟨("pico").data, ("luz").data, ("rede").data⟩
    (fun _ => false) (fun _ => (305 : ℚ))).1 0 rfl⟩

/-- C7: every steady-state iteration — connected or not — ends with exactly
one `sleep_ms(1000)`; across `n` iterations exactly `n` such sleeps
happen. -/
theorem loop_fixed_cadence (cfg : Config) (conn : Nat → Bool) (lux : Nat → ℚ) :
    (∀ i, (cycle cfg conn lux i).getLast? = some (Event.sleep_ms 1000) ∧
      countSleep 1000 (cycle cfg conn lux i) = 1) ∧
    (∀ n, countSleep 1000 (runLoop cfg conn lux n) = n) := by
  constructor
  · intro i
    refine ⟨?_, countSleep1000_cycle cfg conn lux i⟩
    cases hc : conn i <;> simp [cycle, loopIter, hc]
  · intro n
    induction n with
    | zero => rfl
    | succ m ih =>
      rw [runLoop_succ]
      unfold countSleep at *
      rw [List.countP_append, ih]
      have := countSleep1000_cycle cfg conn lux m
      unfold countSleep at this
      rw [this]

/-- C10: every steady-state iteration evaluates the connectivity query
exactly once, and performs exactly one of the two actions — the publish and
restart counts sum to one, so no iteration does both and none does
neither. -/
theorem single_query_single_action (cfg : Config) (conn : Nat → Bool) (lux : Nat → ℚ)
    (i : Nat) :
    countQuery (cycle cfg conn lux i) = 1 ∧
    countPublish (cycle cfg conn lux i) + countStart (cycle cfg conn lux i) = 1 := by
  refine ⟨countQuery_cycle cfg conn lux i, ?_⟩
  rw [countPublish_cycle, countStart_cycle]
  cases conn i <;> rfl

theorem countQuery_graceAux_le (conn : Nat → Bool) :
    ∀ fuel i, countQuery (graceAux conn i fuel) ≤ fuel := by
  intro fuel
  induction fuel with
  | zero => intro i; simp [graceAux, countQuery]
  | succ f ih =>
    intro i
    unfold graceAux
    cases hc : conn i
    · simp only [hc, Bool.false_eq_true, if_false]
      unfold countQuery at *
      simp only [List.countP_cons]
      have := ih (i + 1)
      simp only [countQuery] at this
      simp
      omega
    · simp [countQuery, List.countP_cons, List.countP_nil]

theorem sleepTotal_graceAux_le (conn : Nat → Bool) :
    ∀ fuel i, sleepTotal (graceAux conn i fuel) ≤ 500 * fuel := by
  intro fuel
  induction fuel with
  | zero => intro i; simp [graceAux, sleepTotal]
  | succ f ih =>
    intro i
    unfold graceAux
    cases hc : conn i
    · simp only [hc, Bool.false_eq_true, if_false]
      unfold sleepTotal at *
      simp only [List.map_cons, List.sum_cons]
      have := ih (i + 1)
      omega
    · simp [sleepTotal]

theorem countQuery_graceAux_early (conn : Nat → Bool) :
    ∀ fuel i k, k < fuel → (∀ j, j < k → conn (i + j) = false) → conn (i + k) = true →
      countQuery (graceAux conn i fuel) = k + 1 := by
  intro fuel
  induction fuel with
  | zero => intro i k hk; omega
  | succ f ih =>
    intro i k hk hfalse htrue
    unfold graceAux
    cases k with
    | zero =>
      have h0 : conn i = true := by simpa using htrue
      simp [h0, countQuery, List.countP_cons, List.countP_nil]
    | succ k' =>
      have h0 : conn i = false := by simpa using hfalse 0 (Nat.succ_pos k')
      simp only [h0, Bool.false_eq_true, if_false]
      have hf : ∀ j, j < k' → conn (i + 1 + j) = false := by
        intro j hj
        have heq : i + 1 + j = i + (j + 1) := by omega
        rw [heq]
        exact hfalse (j + 1) (by omega)
      have ht : conn (i + 1 + k') = true := by
        have heq : i + 1 + k' = i + (k' + 1) := by omega
        rw [heq]
        exact htrue
      have hrec := ih (i + 1) k' (by omega) hf ht
      unfold countQuery at *
      simp only [List.countP_cons]
      simp
      omega

theorem countQuery_graceAux_full (conn : Nat → Bool) :
    ∀ fuel i, (∀ j, j < fuel → conn (i + j) = false) →
      countQuery (graceAux conn i fuel) = fuel := by
  intro fuel
  induction fuel with
  | zero => intro i _; simp [graceAux, countQuery]
  | succ f ih =>
    intro i hfalse
    unfold graceAux
    have h0 : conn i = false := by simpa using hfalse 0 (Nat.succ_pos f)
    simp only [h0, Bool.false_eq_true, if_false]
    have hf : ∀ j, j < f → conn (i + 1 + j) = false := by
      intro j hj
      have heq : i + 1 + j = i + (j + 1) := by omega
      rw [heq]
      exact hfalse (j + 1) (by omega)
    have hrec := ih (i + 1) hf
    unfold countQuery at *
    simp only [List.countP_cons]
    simp
    omega

/-- C3: the startup grace loop polls `cliente_mqtt_esta_conectado()` at most
20 times with 500 ms sleeps (total wait at most 10,000 ms); it stops at the
first `true` answer — exactly `k + 1` polls when the client first reports
connected on the `(k+1)`-th attempt — and makes all 20 polls when the
client never connects; afterwards the program proceeds either way, logging
success or a warning according to one further check. -/
theorem grace_loop_bounds (conn : Nat → Bool) :
    countQuery (graceTrace conn) ≤ 20 ∧
    sleepTotal (graceTrace conn) ≤ 10000 ∧
    (∀ k, k < 20 → (∀ j, j < k → conn j = false) → conn k = true →
      countQuery (graceTrace conn) = k + 1) ∧
    ((∀ j, j < 20 → conn j = false) → countQuery (graceTrace conn) = 20) ∧
    (∀ b, postGrace b =
      [Event.mqttQuery b,
       Event.log (if b then ("Conexão MQTT estabelecida com sucesso!\n\n").data
         else ("[AVISO] Não foi possível conectar ao broker MQTT inicialmente.\n\n").data)]) := by
  refine ⟨countQuery_graceAux_le conn 20 0, ?_, ?_, ?_, fun b => rfl⟩
  · have := sleepTotal_graceAux_le conn 20 0
    unfold graceTrace
    omega
  · intro k hk hfalse htrue
    exact countQuery_graceAux_early conn 20 0 k hk
      (fun j hj => by simpa using hfalse j hj) (by simpa using htrue)
  · intro hfalse
    exact countQuery_graceAux_full conn 20 0 (fun j hj => by simpa using hfalse j hj)

/-- Witness for `grace_loop_bounds`: a mock that flips to connected on the
third attempt is polled exactly 3 times. -/
theorem grace_loop_bounds_witness :
    (2 < 20) ∧ ((fun j : Nat => decide (2 ≤ j)) 2 = true) ∧
    countQuery (graceTrace (fun j => decide (2 ≤ j))) = 2 + 1 :=
  ⟨by decide, by decide,
    (grace_loop_bounds (fun j => decide (2 ≤ j))).2.2.1 2 (by decide)
      (fun j hj => by simp only [decide_eq_false_iff_not]; omega) (by decide)⟩

theorem bringUp_snd (cfg : Config) (r w : Bool) :
    (bringUp cfg r w).2 = if r && w then none else some (-1) := by
  cases r <;> cases w <;> rfl

/-- C4: bring-up is strictly ordered radio init → station mode → network
association → I2C bus init → sensor init → MQTT-client init; a radio-init
failure aborts with return value -1 before station mode, and an association
failure aborts with return value -1 before bus, sensor and MQTT-client
init — no retry at this layer. -/
theorem bringup_order_and_abort (cfg : Config) :
    ((bringUp cfg true true).2 = none ∧
      (bringUp cfg true true).1.filter isStep =
        [Event.radioInit, Event.staMode, Event.wifiConnect 30000,
         Event.i2cInit 100000, Event.sensorInit, Event.mqttStart]) ∧
    (∀ w, (bringUp cfg false w).2 = some (-1) ∧
      (bringUp cfg false w).1.filter isStep = [Event.radioInit]) ∧
    ((bringUp cfg true false).2 = some (-1) ∧
      (bringUp cfg true false).1.filter isStep =
        [Event.radioInit, Event.staMode, Event.wifiConnect 30000]) :=
  ⟨⟨rfl, rfl⟩, fun _ => ⟨rfl, rfl⟩, rfl, rfl⟩

/-- C6: `main` never returns 0 — once bring-up succeeds the steady-state
loop runs forever and the final `return 0` is unreachable — and any value it
does return is -1, possible only when radio init or network association
failed. -/
theorem main_exit_codes (cfg : Config) (e : Env) (usbFuel : Nat) :
    mainExit cfg e usbFuel ≠ some 0 ∧
    (∀ c, mainExit cfg e usbFuel = some c →
      c = -1 ∧ (e.radio_ok = false ∨ e.wifi_ok = false)) ∧
    (e.radio_ok = true → e.wifi_ok = true → mainExit cfg e usbFuel = none) := by
  unfold mainExit
  cases husb : usbWaitAux e.usb 0 usbFuel with
  | none => exact ⟨by simp, fun c h => by simp at h, fun _ _ => rfl⟩
  | some t =>
    rw [bringUp_snd]
    cases hr : e.radio_ok <;> cases hw : e.wifi_ok <;> simp

/-- Witness for `main_exit_codes`: with an attached console, working radio
but failed association, `main` returns -1, which is non-zero. -/
theorem main_exit_codes_witness :
    (mainExit ⟨("pico").data, ("luz").data, ("rede").data⟩
      ⟨fun _ => true, true, false, fun _ => false, false, fun _ => false, fun _ => 305⟩
      1 ≠ some 0) ∧
    ((-1 : ℤ) = -1 ∧
      ((⟨fun _ => true, true, false, fun _ => false, false, fun _ => false,
          fun _ => 305⟩ : Env).radio_ok = false ∨
        (⟨fun _ => true, true, false, fun _ => false, false, fun _ => false,
          fun _ => 305⟩ : Env).wifi_ok = false)) :=
  ⟨(main_exit_codes ⟨("pico").data, ("luz").data, ("rede").data⟩
      ⟨fun _ => true, true, false, fun _ => false, false, fun _ => false, fun _ => 305⟩ 1).1,
    (main_exit_codes ⟨("pico").data, ("luz").data, ("rede").data⟩
      ⟨fun _ => true, true, false, fun _ => false, false, fun _ => false, fun _ => 305⟩ 1).2.1
      (-1) (by decide)⟩

theorem usbWaitAux_none (usb : Nat → Bool) :
    ∀ fuel i, (∀ j, usb j = false) → usbWaitAux usb i fuel = none := by
  intro fuel
  induction fuel with
  | zero => intro i _; rfl
  | succ f ih =>
    intro i h
    unfold usbWaitAux
    rw [h i]
    simp [ih (i + 1) h]

theorem usbWaitAux_some_all (usb : Nat → Bool) :
    ∀ fuel i t, usbWaitAux usb i fuel = some t →
      t.all (fun ev => match ev with
        | Event.usbPoll _ => true
        | Event.sleep_ms m => m == 100
        | _ => false) = true := by
  intro fuel
  induction fuel with
  | zero => intro i t h; simp [usbWaitAux] at h
  | succ f ih =>
    intro i t h
    unfold usbWaitAux at h
    by_cases hc : usb i = true
    · rw [if_pos hc] at h
      obtain rfl : [Event.usbPoll true] = t := Option.some.inj h
      rfl
    · rw [if_neg hc] at h
      cases hrec : usbWaitAux usb (i + 1) f with
      | none => rw [hrec] at h; simp at h
      | some t' =>
        rw [hrec] at h
        obtain rfl : Event.usbPoll false :: Event.sleep_ms 100 :: t' = t :=
          Option.some.inj h
        simpa using ih (i + 1) t' hrec

theorem usbWaitAux_term (usb : Nat → Bool) :
    ∀ fuel i k, k < fuel → (∀ j, j < k → usb (i + j) = false) → usb (i + k) = true →
      ∃ t, usbWaitAux usb i fuel = some t ∧ countUsbPoll t = k + 1 ∧
        sleepTotal t = 100 * k := by
  intro fuel
  induction fuel with
  | zero => intro i k hk; omega
  | succ f ih =>
    intro i k hk hfalse htrue
    unfold usbWaitAux
    cases k with
    | zero =>
      have h0 : usb i = true := by simpa using htrue
      rw [if_pos h0]
      exact ⟨[Event.usbPoll true], rfl, by decide, by decide⟩
    | succ k' =>
      have h0 : usb i = false := by simpa using hfalse 0 (Nat.succ_pos k')
      rw [if_neg (by simp [h0])]
      have hf : ∀ j, j < k' → usb (i + 1 + j) = false := by
        intro j hj
        have heq : i + 1 + j = i + (j + 1) := by omega
        rw [heq]
        exact hfalse (j + 1) (by omega)
      have ht : usb (i + 1 + k') = true := by
        have heq : i + 1 + k' = i + (k' + 1) := by omega
        rw [heq]
        exact htrue
      obtain ⟨t', h1, h2, h3⟩ := ih (i + 1) k' (by omega) hf ht
      refine ⟨Event.usbPoll false :: Event.sleep_ms 100 :: t', by rw [h1]; rfl, ?_, ?_⟩
      · unfold countUsbPoll at *
        simp only [List.countP_cons]
        simp
        omega
      · unfold sleepTotal at *
        simp only [List.map_cons, List.sum_cons]
        omega

/-- C8: right after `stdio_init_all()` and before any other logic the
program polls `stdio_usb_connected()` with 100 ms sleeps and no attempt
bound: if the predicate never answers true the whole program trace stays
`none` (the wait never terminates) at every unrolling depth, and if the
first true answer is poll `k` (0-based) the wait finishes with exactly
`k + 1` polls and `k` sleeps of 100 ms; in every terminated trace the only
events between `stdioInit` and the rest of the program are USB polls and
100 ms sleeps. -/
theorem usb_wait_unbounded (cfg : Config) (e : Env) (usbFuel n : Nat) :
    ((∀ j, e.usb j = false) → mainTrace cfg e usbFuel n = none) ∧
    (∀ k, (∀ j, j < k → e.usb j = false) → e.usb k = true → k < usbFuel →
      ∃ t, usbWaitAux e.usb 0 usbFuel = some t ∧ countUsbPoll t = k + 1 ∧
        sleepTotal t = 100 * k) ∧
    (∀ tr, mainTrace cfg e usbFuel n = some tr →
      ∃ w rest, tr = Event.stdioInit :: (w ++ rest) ∧
        usbWaitAux e.usb 0 usbFuel = some w ∧
        w.all (fun ev => match ev with
          | Event.usbPoll _ => true
          | Event.sleep_ms m => m == 100
          | _ => false) = true) := by
  refine ⟨?_, ?_, ?_⟩
  · intro h
    unfold mainTrace
    rw [usbWaitAux_none e.usb usbFuel 0 h]
    rfl
  · intro k hfalse htrue hk
    exact usbWaitAux_term e.usb usbFuel 0 k hk
      (fun j hj => by simpa using hfalse j hj) (by simpa using htrue)
  · intro tr htr
    unfold mainTrace at htr
    cases hw : usbWaitAux e.usb 0 usbFuel with
    | none => rw [hw] at htr; simp at htr
    | some w =>
      rw [hw] at htr
      simp only [Option.map_some'] at htr
      obtain rfl := Option.some.inj htr
      exact ⟨w, _, rfl, rfl, usbWaitAux_some_all e.usb usbFuel 0 w hw⟩

/-- Witness for `usb_wait_unbounded`: a console attaching on the third poll
ends the wait after exactly 3 polls and 2 sleeps. -/
theorem usb_wait_unbounded_witness :
    ((fun j : Nat => decide (2 ≤ j)) 2 = true) ∧ (2 < 9) ∧
    (∃ t, usbWaitAux (fun j : Nat => decide (2 ≤ j)) 0 9 = some t ∧
      countUsbPoll t = 2 + 1 ∧ sleepTotal t = 100 * 2) :=
  ⟨by decide, by decide,
    (usb_wait_unbounded ⟨("pico").data, ("luz").data, ("rede").data⟩
        ⟨fun j => decide (2 ≤ j), true, true, fun _ => false, false, fun _ => false,
          fun _ => 305⟩ 9 0).2.1 2
      (fun j hj => by simp only [decide_eq_false_iff_not]; omega) (by decide) (by decide)⟩

/-- C5: the payload rendering is a base-10 decimal with exactly two
fractional digits and `.` as the separator, independently of any locale
(the embedding of `%.2f` has none): an independent parser that demands
optional sign, digits, `.`, exactly two digits and nothing else recovers
from every rendered payload exactly the reading scaled to hundredths and
rounded; every rendered payload matches `^-?\d+\.\d{2}$`; and the spec's
examples hold — lux 305 publishes "305.00" and lux 0.5 publishes "0.50". -/
theorem payload_fixed_two_decimals :
    (∀ q : ℚ, parseFixed2 (fmt2 q) = some (centi q) ∧ matchesPat (fmt2 q) = true) ∧
    payload_lux 305 = ("305.00").data ∧
    payload_lux (mkRat 1 2) = ("0.50").data :=
  ⟨fun q => ⟨parseFixed2_fmt2 q, matchesPat_fmt2 q⟩, by decide, by decide⟩

/-- C9: both `snprintf` targets are fixed buffers, so the published topic
is at most 127 characters and the payload at most 19; whenever
`strlen(DEVICE_ID) + 1 + strlen(TOPICO_PUBLICACAO_LUZ)` exceeds 127 the
published topic is the silently truncated 127-character prefix and differs
from the full concatenation, which is published exactly when it fits. -/
theorem buffer_truncation_bounds (cfg : Config) (q : ℚ) :
    (topico_completo cfg).length ≤ 127 ∧
    (payload_lux q).length ≤ 19 ∧
    (127 < cfg.DEVICE_ID.length + 1 + cfg.TOPICO_PUBLICACAO_LUZ.length →
      topico_completo cfg =
        (cfg.DEVICE_ID ++ ['/'] ++ cfg.TOPICO_PUBLICACAO_LUZ).take 127 ∧
      topico_completo cfg ≠ cfg.DEVICE_ID ++ ['/'] ++ cfg.TOPICO_PUBLICACAO_LUZ) ∧
    (cfg.DEVICE_ID.length + 1 + cfg.TOPICO_PUBLICACAO_LUZ.length ≤ 127 →
      topico_completo cfg = cfg.DEVICE_ID ++ ['/'] ++ cfg.TOPICO_PUBLICACAO_LUZ) := by
  refine ⟨?_, ?_, ?_, ?_⟩
  · unfold topico_completo snprintfTo
    simp [List.length_take]
  · unfold payload_lux snprintfTo
    simp [List.length_take]
  · intro h
    refine ⟨rfl, ?_⟩
    intro hcontra
    have hlen := congrArg List.length hcontra
    unfold topico_completo snprintfTo at hlen
    simp [List.length_take, List.length_append] at hlen
    omega
  · intro h
    unfold topico_completo snprintfTo
    apply take_of_fits
    simp
    omega

set_option maxRecDepth 4000 in
/-- Witness for `buffer_truncation_bounds`: a 130-character device id makes
the topic the truncated prefix, different from the full concatenation yet
still at most 127 characters. -/
theorem buffer_truncation_bounds_witness :
    (127 < (List.replicate 130 'a').length + 1 + ("luz").data.length) ∧
    (topico_completo ⟨List.replicate 130 'a', ("luz").data, ("r").data⟩ ≠
      List.replicate 130 'a' ++ ['/'] ++ ("luz").data) ∧
    (topico_completo ⟨List.replicate 130 'a', ("luz").data, ("r").data⟩).length ≤ 127 :=
  ⟨by decide,
    ((buffer_truncation_bounds ⟨List.replicate 130 'a', ("luz").data, ("r").data⟩
        305).2.2.1 (by decide)).2,
    (buffer_truncation_bounds ⟨List.replicate 130 'a', ("luz").data, ("r").data⟩ 305).1⟩

